import Mathlib

/-!
Shallow embedding of the routine-manager backend's challenge progression
engine: the timezone day-boundary helpers (src/utils/timezone.ts), the
personal streak calculator (computeStreaks in the user-habit controller),
and the enrollment progression logic in getMyChallengeProgress (lazy
recomputation on read) and logHabit (completion event).

Instants are modelled as integer milliseconds since the Unix epoch; a
timezone is modelled by its UTC-offset function (milliseconds at a given
instant), mirroring getOffsetMs.  JavaScript `Math.floor` of an exact
division is `Int.fdiv`; date `setHours(0,0,0,0)` / `setUTCHours(0,0,0,0)`
are truncations to the local / UTC midnight.
-/

/-- One day in milliseconds (`1000 * 60 * 60 * 24` in the source). -/
def DAY : Int := 86400000

/-- A timezone, modelled by its UTC offset in milliseconds at a given
instant (the value `getOffsetMs(timezone, date)` computes). -/
abbrev TZ := Int → Int

/-- A fixed-offset zone (no DST); e.g. UTC+5:30 is `constTZ 19800000`. -/
def constTZ (off : Int) : TZ := fun _ => off

/-- Local calendar day index of an instant in a zone: `toLocalDateStr`
formats the instant in the zone, which yields the UTC calendar date of the
shifted instant `t + offset`. -/
def toLocalDayNum (tz : TZ) (t : Int) : Int := (t + tz t).fdiv DAY

/-- `startOfDayInTZ`: parse the local calendar date as a naive UTC midnight,
then shift back by the zone's offset at `t`. -/
def startOfDayInTZ (tz : TZ) (t : Int) : Int := toLocalDayNum tz t * DAY - tz t

/-- `endOfDayInTZ`: start of the day plus 24h minus 1 ms. -/
def endOfDayInTZ (tz : TZ) (t : Int) : Int := startOfDayInTZ tz t + DAY - 1

/-- `toDay`: `setUTCHours(0,0,0,0)`, truncation to the UTC midnight. -/
def toDay (t : Int) : Int := t.fdiv DAY * DAY

/-- `date.setHours(0,0,0,0)` on a server whose local clock runs at the fixed
UTC offset `soff`: truncation to the server-local midnight. -/
def truncDayAt (soff t : Int) : Int := (t + soff).fdiv DAY * DAY - soff

/-- Enrollment status enum of the UserChallenge model. -/
inductive CStatus
  | active
  | completed
  | failed
  deriving DecidableEq

/-- The `progress` subdocument of a UserChallenge. -/
structure Progress where
  completedDays : Int
  currentStreak : Int
  lastCompletedDate : Option Int
  deriving DecidableEq

/-- A UserChallenge (enrollment) document: the fields the progression
engine reads and writes. -/
structure Enrollment where
  startDate : Int
  status : CStatus
  progress : Progress
  livesRemaining : Int
  missedDays : Int
  completedOn : Option Int
  deriving DecidableEq

/-- `daysElapsed` of the lazy recomputation in getMyChallengeProgress:
`Math.floor((today - startDay) / DAY_MS)` with both instants truncated to
server-local midnights. -/
def daysElapsedSrv (soff now start : Int) : Int :=
  (truncDayAt soff now - truncDayAt soff start).fdiv DAY

/-- `completedDaysForPast` of the lazy recomputation: completedDays, minus
one when the last completed date falls on (server-local) today. -/
def pastCompleted (soff now : Int) (p : Progress) : Int :=
  match p.lastCompletedDate with
  | some lc =>
      if truncDayAt soff lc = truncDayAt soff now then p.completedDays - 1
      else p.completedDays
  | none => p.completedDays

/-- `totalMissedDays` of the lazy recomputation. -/
def missedCalc (soff now : Int) (e : Enrollment) : Int :=
  max 0 (daysElapsedSrv soff now e.startDate - pastCompleted soff now e.progress)

/-- `totalLivesRemaining` of the lazy recomputation. -/
def livesCalc (soff now : Int) (e : Enrollment) : Int :=
  max 0 (5 - missedCalc soff now e)

/-- The update document written by the lazy recomputation when something
changed: new missed days and lives, with the transition to failed (and the
completedOn stamp, `new Date()`) when lives reached zero. -/
def applyLazy (soff now : Int) (e : Enrollment) : Enrollment :=
  { e with
    missedDays := missedCalc soff now e
    livesRemaining := livesCalc soff now e
    status := if livesCalc soff now e ≤ 0 then .failed else e.status
    completedOn := if livesCalc soff now e ≤ 0 then some now else e.completedOn }

/-- The lazy missed-day recomputation performed by getMyChallengeProgress
on every read (source lines 362-409): only when the enrollment is active,
recompute missed days and lives from elapsed server-local days; persist
only when a value changed or lives hit zero. -/
def recompute (soff now : Int) (e : Enrollment) : Enrollment :=
  if e.status = .active then
    if missedCalc soff now e ≠ e.missedDays ∨
        livesCalc soff now e ≠ e.livesRemaining ∨ livesCalc soff now e ≤ 0 then
      applyLazy soff now e
    else e
  else e

/-- Modelled from the spec: the same lazy recomputation, but with every day
boundary anchored to the user's IANA timezone through the startOfDayInTZ
helper (spec sections 1 and 4.5b; the helper file's own contract).  The
source's getMyChallengeProgress instead truncates with the server-local
`setHours(0,0,0,0)`; this definition exists only to exhibit the divergence. -/
def recomputeSpecTZ (tz : TZ) (now : Int) (e : Enrollment) : Enrollment :=
  if e.status = .active then
    let todayTZ := startOfDayInTZ tz now
    let elapsed := (todayTZ - startOfDayInTZ tz e.startDate).fdiv DAY
    let past :=
      match e.progress.lastCompletedDate with
      | some lc =>
          if startOfDayInTZ tz lc = todayTZ then e.progress.completedDays - 1
          else e.progress.completedDays
      | none => e.progress.completedDays
    let m := max 0 (elapsed - past)
    let l := max 0 (5 - m)
    if m ≠ e.missedDays ∨ l ≠ e.livesRemaining ∨ l ≤ 0 then
      { e with
        missedDays := m
        livesRemaining := l
        status := if l ≤ 0 then .failed else e.status
        completedOn := if l ≤ 0 then some now else e.completedOn }
    else e
  else e

/-- C1 witness enrollment: active, started at epoch day 0, day 1 completed
(last completion on day 1), full lives. -/
def eC1 : Enrollment :=
  { startDate := 0
    status := .active
    progress := { completedDays := 1, currentStreak := 1, lastCompletedDate := some (DAY + 5) }
    livesRemaining := 5
    missedDays := 0
    completedOn := none }

/-- C3 failing enrollment: freshly started at 1970-04-11T00:00:00Z
(epoch day 100), nothing completed yet. -/
def eC3 : Enrollment :=
  { startDate := 100 * DAY
    status := .active
    progress := { completedDays := 0, currentStreak := 0, lastCompletedDate := none }
    livesRemaining := 5
    missedDays := 0
    completedOn := none }

/-- India Standard Time, a fixed UTC+5:30 zone. -/
def istTZ : TZ := constTZ 19800000

/-- C3 failing read instant: 18:55:00Z on epoch day 100, which is already
00:25 of the next local day in IST. -/
def tC3 : Int := 100 * DAY + 68100000

/-- Result record of the Streak Calculator (computeStreaks). -/
structure StreakResult where
  currentStreak : Nat
  longestStreak : Nat
  lastCompletedDate : Option Int
  deriving DecidableEq

/-- Insertion into an ascending-sorted list. -/
def insertSorted (x : Int) : List Int → List Int
  | [] => [x]
  | y :: ys => if x ≤ y then x :: y :: ys else y :: insertSorted x ys

/-- Ascending sort of the deduplicated day values, modelling
`.sort((a, b) => a.getTime() - b.getTime())`. -/
def sortInts (l : List Int) : List Int := l.foldr insertSorted []

/-- The longest-streak scan of computeStreaks: walk consecutive pairs; a
gap of exactly one day extends the run, anything else resets it to 1; the
maximum run length seen is tracked.  Arguments: previous day, current run
length, best so far, remaining days. -/
def longestAux : Int → Nat → Nat → List Int → Nat
  | _, _, best, [] => best
  | prev, temp, best, d :: rest =>
    if d - prev = DAY then longestAux d (temp + 1) (max best (temp + 1)) rest
    else longestAux d 1 best rest

/-- The backward current-streak walk of computeStreaks, applied to the
reversed day list (most recent day first): count 1 for the anchor day and
keep counting while adjacent days are exactly one day apart. -/
def currentRun : List Int → Nat
  | [] => 0
  | [_] => 1
  | a :: b :: rest => if a - b = DAY then 1 + currentRun (b :: rest) else 1

/-- computeStreaks (user-habit controller, lines 20-77): deduplicate the
completion instants to UTC-truncated days (toDay), sort ascending, scan for
the longest run, then anchor the current streak at today in the user's
zone: if the most recent day is more than one day-unit before todayInTZ the
current streak is 0 (the `lastDiff > 1` check), otherwise walk backward
from the most recent day. -/
def computeStreaks (now : Int) (tz : TZ) (dates : List Int) : StreakResult :=
  if dates.isEmpty then ⟨0, 0, none⟩
  else
    match sortInts (dates.map toDay).dedup with
    | [] => ⟨0, 0, none⟩
    | d :: rest =>
      let longestStreak := longestAux d 1 1 rest
      match (d :: rest).reverse with
      | [] => ⟨0, 0, none⟩
      | last :: prevRev =>
        if startOfDayInTZ tz now - last > DAY then ⟨0, longestStreak, some last⟩
        else ⟨currentRun (last :: prevRev), longestStreak, some last⟩

/-- A HabitLog document: one completion-ledger entry. -/
structure LogEntry where
  habit_id : Nat
  dateCompleted : Int
  deriving DecidableEq

/-- The persistent state logHabit touches for one enrollment: the ids of
the habits linked to it, the ledger entries of those habits, the
enrollment document, and the associated challenge's durationDays. -/
structure World where
  habits : List Nat
  logs : List LogEntry
  enrollment : Enrollment
  durationDays : Int
  deriving DecidableEq

/-- The error responses of logHabit: 404 (habit or challenge not found),
400 (enrollment not active), 409 (already logged for this date). -/
inductive LogError
  | notFound
  | invalidState
  | conflict
  deriving DecidableEq

/-- The progression-related fields of a successful logHabit response. -/
structure LogResult where
  dayCompleted : Bool
  challengeCompleted : Bool
  challengeFailed : Bool
  livesRemaining : Int
  deriving DecidableEq

/-- The ledger day-window query
`dateCompleted: { $gte: startOfDay, $lte: startOfDay + DAY - 1 }`. -/
def inDayWindow (day t : Int) : Bool := day ≤ t && t ≤ day + DAY - 1

/-- The ledger query predicate: an entry of one habit within one day
window. -/
def isLogMatch (hb : Nat) (day : Int) (l : LogEntry) : Bool :=
  l.habit_id == hb && inDayWindow day l.dateCompleted

/-- `HabitLog.findOne({habit_id, dateCompleted: window})` returned a
document. -/
def hasLogFor (logs : List LogEntry) (hb : Nat) (day : Int) : Bool :=
  logs.any (isLogMatch hb day)

/-- The number of ledger entries for one habit within one day window. -/
def countLogsForHabit (logs : List LogEntry) (hb : Nat) (day : Int) : Nat :=
  (logs.filter (isLogMatch hb day)).length

/-- `todayLogs.length`: the ledger entries of the linked habits within the
day window (`habit_id: { $in: habitIds }`). -/
def countLogsInWindow (logs : List LogEntry) (habits : List Nat) (day : Int) : Nat :=
  (logs.filter (fun l => decide (l.habit_id ∈ habits) && inDayWindow day l.dateCompleted)).length

/-- The idempotency guard of logHabit: the day being completed was already
counted (`lastDay.getTime() === startOfDay.getTime()`). -/
def alreadyCounted (tz : TZ) (logDate : Int) (e : Enrollment) : Bool :=
  match e.progress.lastCompletedDate with
  | some lc => startOfDayInTZ tz lc == logDate
  | none => false

/-- `daysElapsed` of the completion event: whole days between the tz start
of the enrollment's startDate and the day being completed. -/
def daysElapsedTZ (tz : TZ) (logDate start : Int) : Int :=
  (logDate - startOfDayInTZ tz start).fdiv DAY

/-- `totalMissedDays` of the completion event:
`max(0, daysElapsed - newCompletedDays + 1)`. -/
def missedAfter (tz : TZ) (logDate : Int) (e : Enrollment) : Int :=
  max 0 (daysElapsedTZ tz logDate e.startDate - (e.progress.completedDays + 1) + 1)

/-- `totalLivesRemaining` of the completion event. -/
def livesAfter (tz : TZ) (logDate : Int) (e : Enrollment) : Int :=
  max 0 (5 - missedAfter tz logDate e)

/-- `challengeFailed = totalLivesRemaining <= 0`. -/
def failedAfter (tz : TZ) (logDate : Int) (e : Enrollment) : Bool :=
  decide (livesAfter tz logDate e ≤ 0)

/-- `challengeCompleted`: the new streak reached durationDays and the
challenge did not fail. -/
def completedAfter (tz : TZ) (logDate dur : Int) (e : Enrollment) : Bool :=
  decide (dur ≤ e.progress.currentStreak + 1) && !failedAfter tz logDate e

/-- The progress snapshot persisted by logHabit when a day is newly made
fully complete (source lines 286-321): completedDays and currentStreak
increment, lastCompletedDate is set to the completed day, missed days and
lives are recomputed, and the termination check runs (completed only when
not failed). -/
def completionUpdate (tz : TZ) (now logDate dur : Int) (e : Enrollment) : Enrollment :=
  { e with
    progress :=
      { completedDays := e.progress.completedDays + 1
        currentStreak := e.progress.currentStreak + 1
        lastCompletedDate := some logDate }
    livesRemaining := livesAfter tz logDate e
    missedDays := missedAfter tz logDate e
    status :=
      if completedAfter tz logDate dur e then .completed
      else if failedAfter tz logDate e then .failed
      else e.status
    completedOn :=
      if completedAfter tz logDate dur e || failedAfter tz logDate e then some now
      else e.completedOn }

/-- logHabit (source lines 187-344) for one enrollment world: reject a
missing habit (404) and a non-active enrollment (400); anchor the log to
the start of day in the user's timezone; reject a duplicate entry for that
day (409); insert the ledger entry; then, when every linked habit now has
an entry for the day and the day was not already counted, apply the
progression update. -/
def logHabit (tz : TZ) (now : Int) (w : World) (habitId : Nat) (dateArg : Option Int) :
    Except LogError (World × LogResult) :=
  if habitId ∈ w.habits then
    if w.enrollment.status = .active then
      let logDate := startOfDayInTZ tz (dateArg.getD now)
      if hasLogFor w.logs habitId logDate then .error .conflict
      else
        let logs' := w.logs ++ [{ habit_id := habitId, dateCompleted := logDate }]
        if w.habits.length ≤ countLogsInWindow logs' w.habits logDate then
          if alreadyCounted tz logDate w.enrollment then
            .ok ({ w with logs := logs' },
              { dayCompleted := true, challengeCompleted := false
                challengeFailed := false, livesRemaining := w.enrollment.livesRemaining })
          else
            .ok ({ w with
                    logs := logs'
                    enrollment := completionUpdate tz now logDate w.durationDays w.enrollment },
              { dayCompleted := true
                challengeCompleted := completedAfter tz logDate w.durationDays w.enrollment
                challengeFailed := failedAfter tz logDate w.enrollment
                livesRemaining := livesAfter tz logDate w.enrollment })
        else
          .ok ({ w with logs := logs' },
            { dayCompleted := false, challengeCompleted := false
              challengeFailed := false, livesRemaining := w.enrollment.livesRemaining })
    else .error .invalidState
  else .error .notFound

/-- C2 witness world: one linked habit (id 7), empty ledger, active
enrollment started at epoch with day 1 already counted, full lives. -/
def wC2 : World :=
  { habits := [7]
    logs := []
    enrollment :=
      { startDate := 0
        status := .active
        progress := { completedDays := 1, currentStreak := 1, lastCompletedDate := some DAY }
        livesRemaining := 5
        missedDays := 0
        completedOn := none }
    durationDays := 30 }

/-- The expected world after logging habit 7 on epoch day 2 in wC2: day 1
was skipped, so one missed day and four lives. -/
def wC2' : World :=
  { habits := [7]
    logs := [{ habit_id := 7, dateCompleted := 2 * DAY }]
    enrollment :=
      { startDate := 0
        status := .active
        progress := { completedDays := 2, currentStreak := 2, lastCompletedDate := some (2 * DAY) }
        livesRemaining := 4
        missedDays := 1
        completedOn := none }
    durationDays := 30 }

/-- C5 witness enrollment: fresh progress, logging a day 11 days after the
start both exhausts lives and (with durationDays 1) reaches the target. -/
def eC5 : Enrollment :=
  { startDate := 0
    status := .active
    progress := { completedDays := 0, currentStreak := 0, lastCompletedDate := none }
    livesRemaining := 5
    missedDays := 0
    completedOn := none }

/-- C7 counterexample start world: a one-day challenge with a single
habit; the first log completes the challenge. -/
def wC7a : World :=
  { habits := [0]
    logs := []
    enrollment :=
      { startDate := 0
        status := .active
        progress := { completedDays := 0, currentStreak := 0, lastCompletedDate := none }
        livesRemaining := 5
        missedDays := 0
        completedOn := none }
    durationDays := 1 }

/-- The world after the first log in wC7a: the enrollment is completed, so
a second identical log is rejected as InvalidState, not Conflict. -/
def wC7b : World :=
  { habits := [0]
    logs := [{ habit_id := 0, dateCompleted := 0 }]
    enrollment :=
      { startDate := 0
        status := .completed
        progress := { completedDays := 1, currentStreak := 1, lastCompletedDate := some 0 }
        livesRemaining := 5
        missedDays := 0
        completedOn := some 0 }
    durationDays := 1 }

/-- C7 witness world: two linked habits, so the first log does not
terminate the challenge and the second is rejected as Conflict. -/
def wC7w : World :=
  { habits := [0, 1]
    logs := []
    enrollment :=
      { startDate := 0
        status := .active
        progress := { completedDays := 0, currentStreak := 0, lastCompletedDate := none }
        livesRemaining := 5
        missedDays := 0
        completedOn := none }
    durationDays := 30 }

/-- C8 witness world: one habit, and the day being logged (epoch day 0)
equals the already-counted lastCompletedDate. -/
def wC8 : World :=
  { habits := [3]
    logs := []
    enrollment :=
      { startDate := 0
        status := .active
        progress := { completedDays := 1, currentStreak := 1, lastCompletedDate := some 0 }
        livesRemaining := 5
        missedDays := 0
        completedOn := none }
    durationDays := 30 }

/-- C10 witness world: two linked habits; logging only habit 1 leaves
habit 2 without an entry, so the day is not complete. -/
def wC10 : World :=
  { habits := [1, 2]
    logs := []
    enrollment :=
      { startDate := 0
        status := .active
        progress := { completedDays := 0, currentStreak := 0, lastCompletedDate := none }
        livesRemaining := 5
        missedDays := 0
        completedOn := none }
    durationDays := 30 }

/-- A zone with a spring-forward transition, modelling a real DST zone such
as Europe/Paris around a late-March changeover: offset +1h before the
transition instant (01:00 UTC on epoch day 100), +2h from it on. -/
def dstTZ : TZ := fun t => if t < 100 * DAY + 3600000 then 3600000 else 7200000

theorem recompute_not_active {soff now : Int} {e : Enrollment}
    (h : ¬ e.status = .active) : recompute soff now e = e := by
  unfold recompute
  rw [if_neg h]

theorem recompute_changed {soff now : Int} {e : Enrollment}
    (h : e.status = .active)
    (hc : missedCalc soff now e ≠ e.missedDays ∨
      livesCalc soff now e ≠ e.livesRemaining ∨ livesCalc soff now e ≤ 0) :
    recompute soff now e = applyLazy soff now e := by
  unfold recompute
  rw [if_pos h, if_pos hc]

theorem recompute_unchanged {soff now : Int} {e : Enrollment}
    (h : e.status = .active)
    (hc : ¬ (missedCalc soff now e ≠ e.missedDays ∨
      livesCalc soff now e ≠ e.livesRemaining ∨ livesCalc soff now e ≤ 0)) :
    recompute soff now e = e := by
  unfold recompute
  rw [if_pos h, if_neg hc]

/-- C1: on a progress read of an active enrollment, the recomputation yields
missedDays = max(0, daysElapsed - completedDaysForPast) and
livesRemaining = max(0, 5 - missedDays); when the recomputed lives reach 0
the enrollment transitions to failed with completedOn stamped; a
non-active enrollment is left untouched by the read. -/
theorem recompute_read_formula (soff now : Int) (e : Enrollment) :
    (e.status = .active →
      (recompute soff now e).missedDays =
          max 0 (daysElapsedSrv soff now e.startDate - pastCompleted soff now e.progress) ∧
        (recompute soff now e).livesRemaining =
          max 0 (5 - (recompute soff now e).missedDays) ∧
        ((recompute soff now e).livesRemaining = 0 →
          (recompute soff now e).status = .failed ∧
            (recompute soff now e).completedOn = some now)) ∧
      (¬ e.status = .active → recompute soff now e = e) := by
  constructor
  · intro h
    by_cases hc : missedCalc soff now e ≠ e.missedDays ∨
        livesCalc soff now e ≠ e.livesRemaining ∨ livesCalc soff now e ≤ 0
    · rw [recompute_changed h hc]
      refine ⟨rfl, rfl, fun hz => ?_⟩
      have hle : livesCalc soff now e ≤ 0 := le_of_eq (hz : livesCalc soff now e = 0)
      constructor
      · show (if livesCalc soff now e ≤ 0 then CStatus.failed else e.status) = .failed
        rw [if_pos hle]
      · show (if livesCalc soff now e ≤ 0 then some now else e.completedOn) = some now
        rw [if_pos hle]
    · rw [recompute_unchanged h hc]
      have h1 : missedCalc soff now e = e.missedDays := by
        by_contra hne
        exact hc (Or.inl hne)
      have h2 : livesCalc soff now e = e.livesRemaining := by
        by_contra hne
        exact hc (Or.inr (Or.inl hne))
      have h3 : ¬ livesCalc soff now e ≤ 0 := fun hle => hc (Or.inr (Or.inr hle))
      refine ⟨h1.symm, ?_, fun hz => absurd (le_of_eq ((h2.trans hz))) h3⟩
      rw [← h2, ← h1]
      rfl
  · intro h
    exact recompute_not_active h

/-- C1 witness: at server offset 0, read instant 2 days (plus 100 ms) after
a start at epoch, with one past completed day, the recomputation reports
1 missed day and 4 lives. -/
theorem recompute_read_formula_witness :
    (recompute 0 (2 * DAY + 100) eC1).missedDays = 1 ∧
      (recompute 0 (2 * DAY + 100) eC1).livesRemaining = 4 := by
  have h := (recompute_read_formula 0 (2 * DAY + 100) eC1).1 rfl
  have h1 : (recompute 0 (2 * DAY + 100) eC1).missedDays = 1 := by
    rw [h.1]
    decide
  have h2 : (recompute 0 (2 * DAY + 100) eC1).livesRemaining = 4 := by
    rw [h.2.1, h1]
    decide
  exact ⟨h1, h2⟩

/-- C4: the lazy recomputation is an idempotent fixed point: running it a
second time with the same current instant changes nothing, including after
it has just applied a failure. -/
theorem recompute_idempotent (soff now : Int) (e : Enrollment) :
    recompute soff now (recompute soff now e) = recompute soff now e := by
  by_cases h : e.status = .active
  · by_cases hc : missedCalc soff now e ≠ e.missedDays ∨
        livesCalc soff now e ≠ e.livesRemaining ∨ livesCalc soff now e ≤ 0
    · rw [recompute_changed h hc]
      by_cases hf : livesCalc soff now e ≤ 0
      · refine recompute_not_active ?_
        show ¬ (if livesCalc soff now e ≤ 0 then CStatus.failed else e.status) = .active
        rw [if_pos hf]
        intro hcon
        cases hcon
      · refine recompute_unchanged ?_ ?_
        · show (if livesCalc soff now e ≤ 0 then CStatus.failed else e.status) = .active
          rw [if_neg hf]
          exact h
        · intro hcon
          rcases hcon with hx | hx | hx
          · exact hx rfl
          · exact hx rfl
          · exact hf hx
    · rw [recompute_unchanged h hc]
      exact recompute_unchanged h hc
  · rw [recompute_not_active h]
    exact recompute_not_active h

/-- C3: the lazy recomputation anchors "today" to the server clock, not the
user's stored IANA timezone.  At 18:55Z on epoch day 100 — already 00:25 of
the next local day in IST — a fresh enrollment started at day-100 midnight
UTC is left untouched by the source's server-anchored recomputation (0
elapsed days), while the recomputation the spec describes, anchored to the
user's timezone through startOfDayInTZ, records 1 missed day and 4 lives. -/
theorem lazy_recompute_server_tz_eval :
    recompute 0 tC3 eC3 = eC3 ∧
      (recomputeSpecTZ istTZ tC3 eC3).missedDays = 1 ∧
      (recomputeSpecTZ istTZ tC3 eC3).livesRemaining = 4 ∧
      recompute 0 tC3 eC3 ≠ recomputeSpecTZ istTZ tC3 eC3 := by
  refine ⟨by decide, by decide, by decide, by decide⟩

/-- C6 (code-bug evaluation): a single completion logged at the user's IST
local midnight of local day 99, read during local day 100 — the completion
was yesterday in the user's calendar — yields currentStreak 0 from the
source code: the current-streak anchor compares todayInTZ (a tz-local
midnight) against a toDay value (a UTC truncation), so in any non-UTC zone
a yesterday completion appears more than one day old.  The claim, the
spec, and the source's own comments ("If last completion is not today or
yesterday, streak is 0"; toDay must not be compared against todayInTZ) all
require currentStreak 1 here. -/
theorem computeStreaks_yesterday_nonutc_eval :
    computeStreaks (100 * DAY) istTZ [99 * DAY - 19800000] =
      { currentStreak := 0, longestStreak := 1, lastCompletedDate := some (98 * DAY) } := by
  decide

theorem sum_map_zero {α : Type} (l : List α) : (l.map fun _ => (0 : Nat)).sum = 0 := by
  induction l with
  | nil => rfl
  | cons a t ih => simp [ih]

theorem sum_map_add_nat {α : Type} (l : List α) (f g : α → Nat) :
    (l.map fun x => f x + g x).sum = (l.map f).sum + (l.map g).sum := by
  induction l with
  | nil => rfl
  | cons a t ih =>
    simp only [List.map_cons, List.sum_cons, ih]
    omega

theorem length_filter_cons {α : Type} (p : α → Bool) (x : α) (xs : List α) :
    ((x :: xs).filter p).length = (if p x then 1 else 0) + (xs.filter p).length := by
  by_cases h : p x
  · simp only [List.filter_cons, h, if_true, List.length_cons]
    omega
  · simp [List.filter_cons, h]

theorem sum_map_indicator (hb0 : Nat) (c : Bool) (habits : List Nat) (hnd : habits.Nodup) :
    (habits.map fun hb => if (hb0 == hb) && c then 1 else 0).sum =
      if decide (hb0 ∈ habits) && c then 1 else 0 := by
  induction habits with
  | nil => simp
  | cons a t ih =>
    rw [List.nodup_cons] at hnd
    rw [List.map_cons, List.sum_cons, ih hnd.2]
    by_cases h : hb0 = a
    · subst h
      have ht : (decide (hb0 ∈ t)) = false := by simp [hnd.1]
      have hmem : (decide (hb0 ∈ hb0 :: t)) = true := by simp
      rw [ht, hmem]
      simp
    · have hb : (hb0 == a) = false := beq_eq_false_iff_ne.mpr h
      have hmem : (decide (hb0 ∈ a :: t)) = decide (hb0 ∈ t) := by
        simp [List.mem_cons, h]
      rw [hb, hmem]
      simp

theorem countWindow_eq_sum (logs : List LogEntry) (habits : List Nat) (day : Int)
    (hnd : habits.Nodup) :
    countLogsInWindow logs habits day =
      (habits.map fun hb => countLogsForHabit logs hb day).sum := by
  induction logs with
  | nil =>
    have h0 : (fun hb => countLogsForHabit ([] : List LogEntry) hb day) = fun _ => (0 : Nat) :=
      funext fun _ => rfl
    rw [h0, sum_map_zero]
    rfl
  | cons l ls ih =>
    have hsplit : (fun hb => countLogsForHabit (l :: ls) hb day) =
        fun hb => (if isLogMatch hb day l then 1 else 0) + countLogsForHabit ls hb day :=
      funext fun hb => length_filter_cons (isLogMatch hb day) l ls
    rw [hsplit, sum_map_add_nat]
    have hind : (habits.map fun hb => if isLogMatch hb day l then 1 else 0).sum =
        if decide (l.habit_id ∈ habits) && inDayWindow day l.dateCompleted then 1 else 0 :=
      sum_map_indicator l.habit_id (inDayWindow day l.dateCompleted) habits hnd
    rw [hind, ← ih]
    show countLogsInWindow (l :: ls) habits day = _
    rw [show countLogsInWindow (l :: ls) habits day =
        (if decide (l.habit_id ∈ habits) && inDayWindow day l.dateCompleted then 1 else 0) +
          countLogsInWindow ls habits day from
      length_filter_cons _ l ls]

theorem sum_map_le_length (habits : List Nat) (f : Nat → Nat) (h1 : ∀ hb, f hb ≤ 1) :
    (habits.map f).sum ≤ habits.length := by
  induction habits with
  | nil => simp
  | cons a t ih =>
    have := h1 a
    simp only [List.map_cons, List.sum_cons, List.length_cons]
    omega

theorem sum_map_lt_length (habits : List Nat) (f : Nat → Nat) (h' : Nat)
    (hm : h' ∈ habits) (h0 : f h' = 0) (h1 : ∀ hb, f hb ≤ 1) :
    (habits.map f).sum < habits.length := by
  induction habits with
  | nil => cases hm
  | cons a t ih =>
    rcases List.mem_cons.1 hm with he | ht
    · subst he
      have hle := sum_map_le_length t f h1
      simp only [List.map_cons, List.sum_cons, List.length_cons, h0]
      omega
    · have := ih ht
      have := h1 a
      simp only [List.map_cons, List.sum_cons, List.length_cons]
      omega

theorem countFor_append (logs : List LogEntry) (x : LogEntry) (hb : Nat) (day : Int) :
    countLogsForHabit (logs ++ [x]) hb day =
      countLogsForHabit logs hb day + (if isLogMatch hb day x then 1 else 0) := by
  by_cases h : isLogMatch hb day x <;>
    simp [countLogsForHabit, List.filter_append, List.filter_cons, h]

theorem count_zero_of_hasLog_false {logs : List LogEntry} {hb : Nat} {day : Int}
    (h : hasLogFor logs hb day = false) : countLogsForHabit logs hb day = 0 := by
  induction logs with
  | nil => rfl
  | cons l ls ih =>
    simp only [hasLogFor, List.any_cons, Bool.or_eq_false_iff] at h
    simp only [countLogsForHabit, List.filter_cons, h.1, Bool.false_eq_true, if_false]
    exact ih h.2

theorem inDayWindow_self (day : Int) : inDayWindow day day = true := by
  simp only [inDayWindow, DAY]
  have h1 : day ≤ day := le_refl day
  have h2 : day ≤ day + 86400000 - 1 := by omega
  simp [h1, h2]

theorem isLogMatch_self (hb : Nat) (day : Int) :
    isLogMatch hb day { habit_id := hb, dateCompleted := day } = true := by
  simp [isLogMatch, inDayWindow_self]

theorem hasLogFor_append_self (logs : List LogEntry) (hb : Nat) (day : Int) :
    hasLogFor (logs ++ [{ habit_id := hb, dateCompleted := day }]) hb day = true := by
  simp [hasLogFor, List.any_append, isLogMatch_self]

theorem logHabit_open {tz : TZ} {now d : Int} {w : World} {habitId : Nat}
    (hmem : habitId ∈ w.habits) (hact : w.enrollment.status = .active)
    (hnoc : hasLogFor w.logs habitId (startOfDayInTZ tz d) = false) :
    logHabit tz now w habitId (some d) =
      if w.habits.length ≤
          countLogsInWindow
            (w.logs ++ [{ habit_id := habitId, dateCompleted := startOfDayInTZ tz d }])
            w.habits (startOfDayInTZ tz d) then
        if alreadyCounted tz (startOfDayInTZ tz d) w.enrollment then
          .ok ({ w with
                  logs := w.logs ++ [{ habit_id := habitId, dateCompleted := startOfDayInTZ tz d }] },
            { dayCompleted := true, challengeCompleted := false
              challengeFailed := false, livesRemaining := w.enrollment.livesRemaining })
        else
          .ok ({ w with
                  logs := w.logs ++ [{ habit_id := habitId, dateCompleted := startOfDayInTZ tz d }]
                  enrollment :=
                    completionUpdate tz now (startOfDayInTZ tz d) w.durationDays w.enrollment },
            { dayCompleted := true
              challengeCompleted := completedAfter tz (startOfDayInTZ tz d) w.durationDays w.enrollment
              challengeFailed := failedAfter tz (startOfDayInTZ tz d) w.enrollment
              livesRemaining := livesAfter tz (startOfDayInTZ tz d) w.enrollment })
      else
        .ok ({ w with
                logs := w.logs ++ [{ habit_id := habitId, dateCompleted := startOfDayInTZ tz d }] },
          { dayCompleted := false, challengeCompleted := false
            challengeFailed := false, livesRemaining := w.enrollment.livesRemaining }) := by
  unfold logHabit
  rw [if_pos hmem, if_pos hact]
  simp only [Option.getD_some, hnoc, Bool.false_eq_true, if_false]

/-- C2: a completion event that newly makes a calendar day fully completed
on an active enrollment (all linked habits logged for the day, the day not
already counted) persists: completedDays + 1, missedDays =
max(0, daysElapsed - newCompletedDays + 1), livesRemaining =
max(0, 5 - missedDays), currentStreak + 1 unconditionally, and
lastCompletedDate set to the completed day. -/
theorem logHabit_newday_update (tz : TZ) (now d : Int) (w : World) (h : Nat)
    (hmem : h ∈ w.habits)
    (hact : w.enrollment.status = .active)
    (hnoc : hasLogFor w.logs h (startOfDayInTZ tz d) = false)
    (hall : w.habits.length ≤
      countLogsInWindow (w.logs ++ [{ habit_id := h, dateCompleted := startOfDayInTZ tz d }])
        w.habits (startOfDayInTZ tz d))
    (hnew : alreadyCounted tz (startOfDayInTZ tz d) w.enrollment = false) :
    logHabit tz now w h (some d) =
      .ok ({ w with
              logs := w.logs ++ [{ habit_id := h, dateCompleted := startOfDayInTZ tz d }]
              enrollment :=
                completionUpdate tz now (startOfDayInTZ tz d) w.durationDays w.enrollment },
        { dayCompleted := true
          challengeCompleted := completedAfter tz (startOfDayInTZ tz d) w.durationDays w.enrollment
          challengeFailed := failedAfter tz (startOfDayInTZ tz d) w.enrollment
          livesRemaining := livesAfter tz (startOfDayInTZ tz d) w.enrollment }) ∧
      (completionUpdate tz now (startOfDayInTZ tz d) w.durationDays w.enrollment).progress.completedDays =
        w.enrollment.progress.completedDays + 1 ∧
      (completionUpdate tz now (startOfDayInTZ tz d) w.durationDays w.enrollment).missedDays =
        max 0 (daysElapsedTZ tz (startOfDayInTZ tz d) w.enrollment.startDate -
          (w.enrollment.progress.completedDays + 1) + 1) ∧
      (completionUpdate tz now (startOfDayInTZ tz d) w.durationDays w.enrollment).livesRemaining =
        max 0 (5 -
          (completionUpdate tz now (startOfDayInTZ tz d) w.durationDays w.enrollment).missedDays) ∧
      (completionUpdate tz now (startOfDayInTZ tz d) w.durationDays w.enrollment).progress.currentStreak =
        w.enrollment.progress.currentStreak + 1 ∧
      (completionUpdate tz now (startOfDayInTZ tz d) w.durationDays w.enrollment).progress.lastCompletedDate =
        some (startOfDayInTZ tz d) := by
  refine ⟨?_, rfl, rfl, rfl, rfl, rfl⟩
  rw [logHabit_open hmem hact hnoc, if_pos hall,
    if_neg (show ¬ (alreadyCounted tz (startOfDayInTZ tz d) w.enrollment = true) by
      rw [hnew]; exact Bool.false_ne_true)]

/-- C2 witness: in world wC2 (one habit, day 1 counted), logging habit 7 on
epoch day 2 yields the predicted update: 2 completed days, streak 2, one
missed day (day 1 was day 0's successor... day 0 itself was skipped), 4
lives, lastCompletedDate = day 2. -/
theorem logHabit_newday_update_witness :
    logHabit (constTZ 0) 0 wC2 7 (some (2 * DAY)) =
      .ok (wC2', { dayCompleted := true, challengeCompleted := false
                   challengeFailed := false, livesRemaining := 4 }) := by
  have hh := logHabit_newday_update (constTZ 0) 0 (2 * DAY) wC2 7
    (by decide) (by decide) (by decide) (by decide) (by decide)
  exact hh.1.trans (by rfl)

/-- C5: on a completion event the termination check puts failure first:
recomputed lives at or below zero forces failed; duration reached with
lives remaining yields completed; a day that both exhausts lives and
reaches the duration target fails, never completes. -/
theorem completionUpdate_failure_priority (tz : TZ) (now logDate dur : Int) (e : Enrollment) :
    (livesAfter tz logDate e ≤ 0 →
      (completionUpdate tz now logDate dur e).status = .failed) ∧
      (0 < livesAfter tz logDate e → dur ≤ e.progress.currentStreak + 1 →
        (completionUpdate tz now logDate dur e).status = .completed) ∧
      (livesAfter tz logDate e ≤ 0 → dur ≤ e.progress.currentStreak + 1 →
        (completionUpdate tz now logDate dur e).status = .failed) := by
  refine ⟨fun hl => ?_, fun hl hdur => ?_, fun hl _ => ?_⟩
  · have hf : failedAfter tz logDate e = true := decide_eq_true hl
    show (if completedAfter tz logDate dur e then CStatus.completed
      else if failedAfter tz logDate e then CStatus.failed else e.status) = .failed
    have hcA : completedAfter tz logDate dur e = false := by
      unfold completedAfter
      rw [hf]
      simp
    rw [hcA]
    simp [hf]
  · have hf : failedAfter tz logDate e = false := by
      unfold failedAfter
      exact decide_eq_false (by omega)
    have hcA : completedAfter tz logDate dur e = true := by
      unfold completedAfter
      rw [hf, decide_eq_true hdur]
      rfl
    show (if completedAfter tz logDate dur e then CStatus.completed
      else if failedAfter tz logDate e then CStatus.failed else e.status) = .completed
    rw [hcA]
    rfl
  · have hf : failedAfter tz logDate e = true := decide_eq_true hl
    show (if completedAfter tz logDate dur e then CStatus.completed
      else if failedAfter tz logDate e then CStatus.failed else e.status) = .failed
    have hcA : completedAfter tz logDate dur e = false := by
      unfold completedAfter
      rw [hf]
      simp
    rw [hcA]
    simp [hf]

/-- C5 witness: completing a day 11 days after the start of a 1-day
challenge with fresh progress both exhausts lives (11 missed) and reaches
the duration target; the result is failed. -/
theorem completionUpdate_failure_priority_witness :
    livesAfter (constTZ 0) (11 * DAY) eC5 ≤ 0 ∧
      (1 : Int) ≤ eC5.progress.currentStreak + 1 ∧
      (completionUpdate (constTZ 0) 0 (11 * DAY) 1 eC5).status = .failed :=
  ⟨by decide, by decide,
    (completionUpdate_failure_priority (constTZ 0) 0 (11 * DAY) 1 eC5).2.2
      (by decide) (by decide)⟩

/-- C8: when the completed calendar day equals the already-counted
progress.lastCompletedDate, logHabit records the log entry but leaves the
enrollment document — status, completedDays, currentStreak, lives, missed
days, lastCompletedDate — entirely unchanged. -/
theorem logHabit_sameday_noop (tz : TZ) (now d : Int) (w : World) (h : Nat)
    (hmem : h ∈ w.habits)
    (hact : w.enrollment.status = .active)
    (hnoc : hasLogFor w.logs h (startOfDayInTZ tz d) = false)
    (hall : w.habits.length ≤
      countLogsInWindow (w.logs ++ [{ habit_id := h, dateCompleted := startOfDayInTZ tz d }])
        w.habits (startOfDayInTZ tz d))
    (hsame : alreadyCounted tz (startOfDayInTZ tz d) w.enrollment = true) :
    logHabit tz now w h (some d) =
      .ok ({ w with
              logs := w.logs ++ [{ habit_id := h, dateCompleted := startOfDayInTZ tz d }] },
        { dayCompleted := true, challengeCompleted := false
          challengeFailed := false, livesRemaining := w.enrollment.livesRemaining }) ∧
      ({ w with
          logs := w.logs ++ [{ habit_id := h, dateCompleted := startOfDayInTZ tz d }] } : World).enrollment =
        w.enrollment := by
  refine ⟨?_, rfl⟩
  rw [logHabit_open hmem hact hnoc, if_pos hall, if_pos hsame]

/-- C8 witness: in wC8 the logged day equals lastCompletedDate; the call
succeeds, the entry is stored, and the enrollment is byte-identical. -/
theorem logHabit_sameday_noop_witness :
    logHabit (constTZ 0) 9 wC8 3 (some 0) =
      .ok ({ wC8 with logs := [{ habit_id := 3, dateCompleted := 0 }] },
        { dayCompleted := true, challengeCompleted := false
          challengeFailed := false, livesRemaining := 5 }) := by
  have hh := logHabit_sameday_noop (constTZ 0) 9 0 wC8 3
    (by decide) (by decide) (by decide) (by decide) (by decide)
  exact hh.1.trans (by rfl)

/-- C10: a log event on an active enrollment that does not make the day
fully complete — witnessed by a linked habit with no ledger entry for that
day even after the insertion — changes nothing but the ledger: the
response reports dayCompleted false and the enrollment document is
untouched (the returned world updates only the logs list). -/
theorem logHabit_incomplete_day_frame (tz : TZ) (now d : Int) (w : World) (h h' : Nat)
    (hmem : h ∈ w.habits)
    (hact : w.enrollment.status = .active)
    (hnoc : hasLogFor w.logs h (startOfDayInTZ tz d) = false)
    (hnd : w.habits.Nodup)
    (huniq : ∀ hb, countLogsForHabit w.logs hb (startOfDayInTZ tz d) ≤ 1)
    (hmem' : h' ∈ w.habits)
    (hmiss : countLogsForHabit
      (w.logs ++ [{ habit_id := h, dateCompleted := startOfDayInTZ tz d }])
      h' (startOfDayInTZ tz d) = 0) :
    logHabit tz now w h (some d) =
      .ok ({ w with
              logs := w.logs ++ [{ habit_id := h, dateCompleted := startOfDayInTZ tz d }] },
        { dayCompleted := false, challengeCompleted := false
          challengeFailed := false, livesRemaining := w.enrollment.livesRemaining }) ∧
      ({ w with
          logs := w.logs ++ [{ habit_id := h, dateCompleted := startOfDayInTZ tz d }] } : World).enrollment =
        w.enrollment := by
  have huniq' : ∀ hb, countLogsForHabit
      (w.logs ++ [{ habit_id := h, dateCompleted := startOfDayInTZ tz d }])
      hb (startOfDayInTZ tz d) ≤ 1 := by
    intro hb
    rw [countFor_append]
    by_cases hhb : hb = h
    · subst hhb
      have h0 : countLogsForHabit w.logs hb (startOfDayInTZ tz d) = 0 :=
        count_zero_of_hasLog_false hnoc
      rw [h0, isLogMatch_self]
      simp
    · have hx : isLogMatch hb (startOfDayInTZ tz d)
          { habit_id := h, dateCompleted := startOfDayInTZ tz d } = false := by
        simp only [isLogMatch, Bool.and_eq_false_iff]
        left
        simpa using fun hcon => hhb hcon.symm
      rw [hx]
      have := huniq hb
      simp only [Bool.false_eq_true, if_false]
      omega
  have hlt : countLogsInWindow
      (w.logs ++ [{ habit_id := h, dateCompleted := startOfDayInTZ tz d }])
      w.habits (startOfDayInTZ tz d) < w.habits.length := by
    rw [countWindow_eq_sum _ _ _ hnd]
    exact sum_map_lt_length w.habits _ h' hmem' hmiss huniq'
  refine ⟨?_, rfl⟩
  rw [logHabit_open hmem hact hnoc, if_neg (not_le.mpr hlt)]

/-- C10 witness: in wC10 (habits 1 and 2), logging only habit 1 leaves
habit 2 unlogged; the ledger gains the entry and the enrollment document is
unchanged. -/
theorem logHabit_incomplete_day_frame_witness :
    logHabit (constTZ 0) 4 wC10 1 (some 0) =
      .ok ({ wC10 with logs := [{ habit_id := 1, dateCompleted := 0 }] },
        { dayCompleted := false, challengeCompleted := false
          challengeFailed := false, livesRemaining := 5 }) := by
  have hh := logHabit_incomplete_day_frame (constTZ 0) 4 0 wC10 1 2
    (by decide) (by decide) (by decide) (by decide)
    (fun hb => by simp [countLogsForHabit, wC10]) (by decide) (by decide)
  exact hh.1.trans (by rfl)

theorem logHabit_rejects {tz : TZ} {now2 d : Int} {w2 : World} {h : Nat}
    (hmem : h ∈ w2.habits)
    (hhas : hasLogFor w2.logs h (startOfDayInTZ tz d) = true) :
    (w2.enrollment.status = .active →
      logHabit tz now2 w2 h (some d) = .error .conflict) ∧
      (¬ w2.enrollment.status = .active →
        logHabit tz now2 w2 h (some d) = .error .invalidState) := by
  constructor
  · intro hs
    unfold logHabit
    rw [if_pos hmem, if_pos hs]
    simp only [Option.getD_some, hhas, if_true]
  · intro hs
    unfold logHabit
    rw [if_pos hmem, if_neg hs]

/-- C7 (amended): after a first successful log of (habit, day) on an active
enrollment, the entry count for the pair is exactly 1 and a second log
attempt for the same pair is always rejected without overwriting — with a
Conflict whenever the enrollment is still active after the first log, and
with InvalidState when the first log itself terminated the challenge. -/
theorem logHabit_duplicate_rejected (tz : TZ) (now now2 d : Int) (w : World) (h : Nat)
    (hmem : h ∈ w.habits)
    (hact : w.enrollment.status = .active)
    (hnoc : hasLogFor w.logs h (startOfDayInTZ tz d) = false) :
    ∃ e' r, logHabit tz now w h (some d) =
        .ok ({ w with
                logs := w.logs ++ [{ habit_id := h, dateCompleted := startOfDayInTZ tz d }]
                enrollment := e' }, r) ∧
      countLogsForHabit
          (w.logs ++ [{ habit_id := h, dateCompleted := startOfDayInTZ tz d }])
          h (startOfDayInTZ tz d) = 1 ∧
      (logHabit tz now2
          ({ w with
              logs := w.logs ++ [{ habit_id := h, dateCompleted := startOfDayInTZ tz d }]
              enrollment := e' }) h (some d) = .error .conflict ∨
        logHabit tz now2
          ({ w with
              logs := w.logs ++ [{ habit_id := h, dateCompleted := startOfDayInTZ tz d }]
              enrollment := e' }) h (some d) = .error .invalidState) ∧
      (e'.status = .active →
        logHabit tz now2
          ({ w with
              logs := w.logs ++ [{ habit_id := h, dateCompleted := startOfDayInTZ tz d }]
              enrollment := e' }) h (some d) = .error .conflict) ∧
      (¬ e'.status = .active →
        logHabit tz now2
          ({ w with
              logs := w.logs ++ [{ habit_id := h, dateCompleted := startOfDayInTZ tz d }]
              enrollment := e' }) h (some d) = .error .invalidState) := by
  have hcount : countLogsForHabit
      (w.logs ++ [{ habit_id := h, dateCompleted := startOfDayInTZ tz d }])
      h (startOfDayInTZ tz d) = 1 := by
    rw [countFor_append, count_zero_of_hasLog_false hnoc, isLogMatch_self]
    rfl
  have hsecond : ∀ e' : Enrollment,
      (e'.status = .active →
        logHabit tz now2
          ({ w with
              logs := w.logs ++ [{ habit_id := h, dateCompleted := startOfDayInTZ tz d }]
              enrollment := e' }) h (some d) = .error .conflict) ∧
        (¬ e'.status = .active →
          logHabit tz now2
            ({ w with
                logs := w.logs ++ [{ habit_id := h, dateCompleted := startOfDayInTZ tz d }]
                enrollment := e' }) h (some d) = .error .invalidState) := by
    intro e'
    exact @logHabit_rejects tz now2 d
      ({ w with
          logs := w.logs ++ [{ habit_id := h, dateCompleted := startOfDayInTZ tz d }]
          enrollment := e' }) h
      hmem (hasLogFor_append_self w.logs h (startOfDayInTZ tz d))
  rw [logHabit_open hmem hact hnoc]
  by_cases hall : w.habits.length ≤
      countLogsInWindow (w.logs ++ [{ habit_id := h, dateCompleted := startOfDayInTZ tz d }])
        w.habits (startOfDayInTZ tz d)
  · rw [if_pos hall]
    by_cases hsame : alreadyCounted tz (startOfDayInTZ tz d) w.enrollment = true
    · rw [if_pos hsame]
      refine ⟨w.enrollment, _, rfl, hcount, ?_, fun hs => (hsecond w.enrollment).1 hs,
        fun hs => (hsecond w.enrollment).2 hs⟩
      exact Or.inl ((hsecond w.enrollment).1 hact)
    · rw [if_neg hsame]
      refine ⟨completionUpdate tz now (startOfDayInTZ tz d) w.durationDays w.enrollment, _,
        rfl, hcount, ?_, fun hs => (hsecond _).1 hs, fun hs => (hsecond _).2 hs⟩
      by_cases hs : (completionUpdate tz now (startOfDayInTZ tz d) w.durationDays w.enrollment).status = .active
      · exact Or.inl ((hsecond _).1 hs)
      · exact Or.inr ((hsecond _).2 hs)
  · rw [if_neg hall]
    refine ⟨w.enrollment, _, rfl, hcount, ?_, fun hs => (hsecond w.enrollment).1 hs,
      fun hs => (hsecond w.enrollment).2 hs⟩
    exact Or.inl ((hsecond w.enrollment).1 hact)

/-- C7 witness: in wC7w (two habits, 30-day challenge) the first log of
habit 0 on day 0 succeeds without terminating the challenge; the second
identical attempt is rejected with Conflict and the pair's entry count is
exactly 1. -/
theorem logHabit_duplicate_rejected_witness :
    ∃ e' r, logHabit (constTZ 0) 5 wC7w 0 (some 0) =
        .ok ({ wC7w with
                logs := wC7w.logs ++ [{ habit_id := 0, dateCompleted := startOfDayInTZ (constTZ 0) 0 }]
                enrollment := e' }, r) ∧
      countLogsForHabit
          (wC7w.logs ++ [{ habit_id := 0, dateCompleted := startOfDayInTZ (constTZ 0) 0 }])
          0 (startOfDayInTZ (constTZ 0) 0) = 1 ∧
      (logHabit (constTZ 0) 6
          ({ wC7w with
              logs := wC7w.logs ++ [{ habit_id := 0, dateCompleted := startOfDayInTZ (constTZ 0) 0 }]
              enrollment := e' }) 0 (some 0) = .error .conflict ∨
        logHabit (constTZ 0) 6
          ({ wC7w with
              logs := wC7w.logs ++ [{ habit_id := 0, dateCompleted := startOfDayInTZ (constTZ 0) 0 }]
              enrollment := e' }) 0 (some 0) = .error .invalidState) ∧
      (e'.status = .active →
        logHabit (constTZ 0) 6
          ({ wC7w with
              logs := wC7w.logs ++ [{ habit_id := 0, dateCompleted := startOfDayInTZ (constTZ 0) 0 }]
              enrollment := e' }) 0 (some 0) = .error .conflict) ∧
      (¬ e'.status = .active →
        logHabit (constTZ 0) 6
          ({ wC7w with
              logs := wC7w.logs ++ [{ habit_id := 0, dateCompleted := startOfDayInTZ (constTZ 0) 0 }]
              enrollment := e' }) 0 (some 0) = .error .invalidState) :=
  logHabit_duplicate_rejected (constTZ 0) 5 6 0 wC7w 0 (by decide) (by decide) (by decide)

/-- C7 counterexample to the claim as stated: in wC7a the first log of
(habit 0, day 0) completes the one-day challenge, so the second identical
log attempt is rejected with InvalidState (400, non-active enrollment),
not with a Conflict — the claim's "fails with a Conflict" does not hold
universally. -/
theorem logHabit_second_attempt_invalidState_cex :
    logHabit (constTZ 0) 0 wC7a 0 (some 0) =
        .ok (wC7b, { dayCompleted := true, challengeCompleted := true
                     challengeFailed := false, livesRemaining := 5 }) ∧
      logHabit (constTZ 0) 0 wC7b 0 (some 0) = .error .invalidState ∧
      ¬ logHabit (constTZ 0) 0 wC7b 0 (some 0) = .error .conflict := by
  refine ⟨rfl, rfl, fun hcon => ?_⟩
  have h2 : (Except.error LogError.invalidState : Except LogError (World × LogResult)) =
      .error .conflict :=
    (rfl : logHabit (constTZ 0) 0 wC7b 0 (some 0) =
      Except.error LogError.invalidState).symm.trans hcon
  cases h2

/-- C9 (amended): for every timezone and instant, endOfDayInTZ equals
startOfDayInTZ plus 24h minus 1 ms; and for every fixed-offset timezone —
any constant offset, including non-whole-hour ones such as UTC+5:30 — the
local calendar day of startOfDayInTZ(tz, t) equals the local calendar day
of t.  (Across a DST transition the round trip can fail; see the
counterexample.) -/
theorem endOfDay_and_fixed_offset_roundtrip (tz : TZ) (off t : Int) :
    endOfDayInTZ tz t = startOfDayInTZ tz t + DAY - 1 ∧
      toLocalDayNum (constTZ off) (startOfDayInTZ (constTZ off) t) =
        toLocalDayNum (constTZ off) t := by
  constructor
  · rfl
  · show ((t + constTZ off t).fdiv DAY * DAY - constTZ off t + constTZ off
        (toLocalDayNum (constTZ off) t * DAY - constTZ off t)).fdiv DAY =
      (t + constTZ off t).fdiv DAY
    show ((t + off).fdiv DAY * DAY - off + off).fdiv DAY = (t + off).fdiv DAY
    rw [sub_add_cancel]
    exact Int.mul_fdiv_cancel _ (by decide)

/-- C9 counterexample: in the DST zone dstTZ, at 10:00 UTC on the
transition day (local noon, offset +2h), startOfDayInTZ lands at 22:00 UTC
of the previous day (the offset used is the one at t, but the offset at
the computed midnight is still +1h), whose local calendar day is the
previous day — the round trip does not preserve the calendar day across a
DST transition. -/
theorem startOfDay_roundtrip_dst_cex :
    toLocalDayNum dstTZ (startOfDayInTZ dstTZ (100 * DAY + 36000000)) ≠
      toLocalDayNum dstTZ (100 * DAY + 36000000) := by
  decide
